import Mathlib

/-!
# Nostramp — Identity Vault & Interaction Reconciliation Engine: verification

A shallow embedding, in Lean 4, of the core logic of the `nostramp`
repository: password-based key encryption (`src/security/crypto.ts`),
the local activity ledger and identity storage (`src/storage.identity.ts`),
the nostr helper layer (`src/nostr.ts`): identifier extraction/decoding,
reaction tallies, publish helpers, and the post-preview hook
(`src/hooks/usePostPreview.ts`) together with the like-count rendering of
`src/pages/PreviewPage.tsx`.

External collaborators are modelled, exactly as the specification scopes
them out ("consumed as an opaque capability"):

* WebCrypto PBKDF2/AES-GCM is modelled as an ideal key-derivation
  function and an ideal AEAD: a derived key is the pair (password, salt),
  a ciphertext is a term recording the key, the nonce and the plaintext,
  and decryption succeeds exactly when key and nonce match.  Base64
  storage encoding (`bufferToBase64`/`base64ToBuffer`, an inverse pair)
  is elided: fields hold the byte-level values.
* The nostr-tools `nip19` bech32 codec is modelled as an injective,
  checksummed encoding into the `[a-z0-9]` alphabet with an executable
  decoder; relay TLV entries of `nevent` payloads are not modelled (no
  claim touches them).
* The relay pool is modelled as a list of events; `querySync` filters it
  the way the relay `kinds` and tag filters do.  Fallible network calls
  take explicit outcome parameters.

Everything else is translated line-by-line from the TypeScript source.
All machine numbers that can be decremented are `Int` (JavaScript
numbers), with the source's explicit `Math.max(0, _)` floors.
-/

namespace Nostramp

/-! ## KeyVault — `src/security/crypto.ts`

`deriveKey` (PBKDF2, 100000 iterations, SHA-256) is deterministic in the
password and the salt; the ideal model takes the derived key to be the
pair itself.  `crypto.subtle` AES-GCM is the ideal AEAD below. -/

/-- Ideal model of a PBKDF2-derived AES-GCM key: deterministic in
`(password, salt)`, and two derivations agree exactly when both the
password and the salt agree. -/
structure DerivedKey where
  password : String
  salt : List Nat
deriving DecidableEq, Repr

/-- Ideal AEAD ciphertext: records the key and nonce it was produced
under and the plaintext it protects.  Authenticated decryption
(`aesGcmDecrypt`) recovers the plaintext exactly when both the key and
the nonce match, and fails closed otherwise — the tag-check guarantee of
AES-GCM. -/
inductive Ciphertext where
  | aesGcm (key : DerivedKey) (iv : List Nat) (plaintext : String)
deriving DecidableEq, Repr

/-- `deriveKey(password, salt)` — PBKDF2 key derivation, ideal model.
The source generates 16 random salt bytes when no salt is passed; the
embedding always takes the salt explicitly (randomness is an input). -/
def deriveKey (password : String) (salt : List Nat) : DerivedKey × List Nat :=
  ({ password := password, salt := salt }, salt)

/-- `crypto.subtle.encrypt({name: AES-GCM, iv}, key, data)` — ideal AEAD. -/
def aesGcmEncrypt (key : DerivedKey) (iv : List Nat) (plaintext : String) : Ciphertext :=
  .aesGcm key iv plaintext

/-- `crypto.subtle.decrypt({name: AES-GCM, iv}, key, ciphertext)` —
ideal AEAD: succeeds exactly on the matching key and nonce.  The
source's promise rejection on tag mismatch is the `none` branch. -/
def aesGcmDecrypt (key : DerivedKey) (iv : List Nat) : Ciphertext → Option String
  | .aesGcm k i p => if k = key ∧ i = iv then some p else none

/-- `EncryptedIdentity` — `{ciphertext, iv, salt}`.  The source stores
each field base64-encoded (`bufferToBase64`/`base64ToBuffer` are an
inverse pair); the embedding keeps the byte-level values. -/
structure EncryptedIdentity where
  ciphertext : Ciphertext
  iv : List Nat
  salt : List Nat
deriving DecidableEq, Repr

/-- `encryptIdentity(privateKeyHex, password)`: derive a key from the
password and a fresh salt, take a fresh 12-byte IV, AEAD-encrypt the
private key.  Salt and IV are random in the source and explicit inputs
here. -/
def encryptIdentity (privateKeyHex password : String) (salt iv : List Nat) :
    EncryptedIdentity :=
  let derived := deriveKey password salt
  { ciphertext := aesGcmEncrypt derived.1 iv privateKeyHex
    iv := iv
    salt := derived.2 }

/-- `decryptIdentity(encryptedIdentity, password)`: re-derive the key
from the stored salt, AEAD-decrypt with the stored IV; the source's
`try`/`catch` returning `null` on any failure is the `Option`. -/
def decryptIdentity (enc : EncryptedIdentity) (password : String) : Option String :=
  let derived := deriveKey password enc.salt
  aesGcmDecrypt derived.1 enc.iv enc.ciphertext

/-- `validatePassword(password)` — reject length < 8 or > 128. -/
def validatePassword (password : String) : Bool × Option String :=
  if password.length < 8 then
    (false, some "Password must be at least 8 characters")
  else if password.length > 128 then
    (false, some "Password must be less than 128 characters")
  else
    (true, none)

/-! ## ActivityLedger — `src/storage.identity.ts`

`getUserActivity`/`saveUserActivity` read and write the single durable
record; each record/remove operation is read–modify–write on it, so the
embedding passes the `UserActivity` value explicitly.  Counts are `Int`
(JavaScript numbers). -/

/-- `UserActivity` — the durable activity record. -/
structure UserActivity where
  replies : Int
  likes : Int
  saves : Int
  likedEvents : List String
  savedEvents : List String
  replyEvents : List String
deriving DecidableEq, Repr

/-- `getDefaultActivity()` — the all-zero record. -/
def getDefaultActivity : UserActivity :=
  { replies := 0, likes := 0, saves := 0
    likedEvents := [], savedEvents := [], replyEvents := [] }

/-- `recordLike(eventId)`: guarded push to `likedEvents` (JavaScript
`Array.push` appends at the end) plus `likes++`. -/
def recordLike (eventId : String) (activity : UserActivity) : UserActivity :=
  if activity.likedEvents.contains eventId then activity
  else { activity with
          likedEvents := activity.likedEvents ++ [eventId]
          likes := activity.likes + 1 }

/-- `removeLike(eventId)`: `indexOf`/`splice` removes the first
occurrence; `likes` is floored at zero with `Math.max(0, likes - 1)`. -/
def removeLike (eventId : String) (activity : UserActivity) : UserActivity :=
  if activity.likedEvents.contains eventId then
    { activity with
        likedEvents := activity.likedEvents.erase eventId
        likes := max 0 (activity.likes - 1) }
  else activity

/-- `recordSave(eventId)` — as `recordLike`, on `savedEvents`/`saves`. -/
def recordSave (eventId : String) (activity : UserActivity) : UserActivity :=
  if activity.savedEvents.contains eventId then activity
  else { activity with
          savedEvents := activity.savedEvents ++ [eventId]
          saves := activity.saves + 1 }

/-- `removeSave(eventId)` — as `removeLike`, on `savedEvents`/`saves`. -/
def removeSave (eventId : String) (activity : UserActivity) : UserActivity :=
  if activity.savedEvents.contains eventId then
    { activity with
        savedEvents := activity.savedEvents.erase eventId
        saves := max 0 (activity.saves - 1) }
  else activity

/-- `recordReply(eventId)` — guarded push to `replyEvents` plus
`replies++`; the source has no `removeReply`. -/
def recordReply (eventId : String) (activity : UserActivity) : UserActivity :=
  if activity.replyEvents.contains eventId then activity
  else { activity with
          replyEvents := activity.replyEvents ++ [eventId]
          replies := activity.replies + 1 }

/-- `hasLikedEvent(eventId)`. -/
def hasLikedEvent (eventId : String) (activity : UserActivity) : Bool :=
  activity.likedEvents.contains eventId

/-- `hasSavedEvent(eventId)`. -/
def hasSavedEvent (eventId : String) (activity : UserActivity) : Bool :=
  activity.savedEvents.contains eventId

/-- One record/remove call of the activity ledger. -/
inductive ActivityOp where
  | like (eventId : String)
  | unlike (eventId : String)
  | save (eventId : String)
  | unsave (eventId : String)
  | reply (eventId : String)
deriving DecidableEq, Repr

/-- Apply one ledger operation. -/
def applyActivityOp (op : ActivityOp) (activity : UserActivity) : UserActivity :=
  match op with
  | .like id => recordLike id activity
  | .unlike id => removeLike id activity
  | .save id => recordSave id activity
  | .unsave id => removeSave id activity
  | .reply id => recordReply id activity

/-- Run a finite sequence of ledger operations, oldest first. -/
def runActivityOps (ops : List ActivityOp) (activity : UserActivity) : UserActivity :=
  ops.foldl (fun a op => applyActivityOp op a) activity

/-! ## Identity creation — `src/storage.identity.ts`

`createEncryptedIdentity` validates the password, refuses when a durable
identity record already exists, then generates a keypair, encrypts it
and persists it.  The durable store slot for
`nostramp_encrypted_identity` is an explicit `Option EncryptedIdentity`
(the source persists `JSON.stringify` of the record, which is injective,
so record equality is byte-for-byte equality of the stored string);
keypair generation and the salt/IV randomness are explicit inputs, and
`localStorage.setItem` success is the `storeOk` flag. -/

/-- `Keypair` — hex-encoded private and public key. -/
structure Keypair where
  privateKey : String
  publicKey : String
deriving DecidableEq, Repr

/-- Result shape of `createEncryptedIdentity`. -/
structure CreateIdentityResult where
  publicKey : String
  error : Option String
deriving DecidableEq, Repr

/-- `hasEncryptedIdentity()` — the durable record slot is occupied. -/
def hasEncryptedIdentity (store : Option EncryptedIdentity) : Bool :=
  store.isSome

/-- `createEncryptedIdentity(password)`: validate, reject when an
identity exists, generate, encrypt, persist.  Returns the result and the
new durable slot. -/
def createEncryptedIdentity (password : String) (keypair : Keypair)
    (salt iv : List Nat) (storeOk : Bool) (store : Option EncryptedIdentity) :
    CreateIdentityResult × Option EncryptedIdentity :=
  let validation := validatePassword password
  if !validation.1 then
    ({ publicKey := "", error := validation.2 }, store)
  else if hasEncryptedIdentity store then
    ({ publicKey := "", error := some "Identity already exists" }, store)
  else
    let encrypted := encryptIdentity keypair.privateKey password salt iv
    if storeOk then
      ({ publicKey := keypair.publicKey, error := none }, some encrypted)
    else
      ({ publicKey := "", error := some "Failed to store identity" }, store)

/-! ## nip19 codec model — external `nostr-tools` collaborator

The spec scopes the bech32-style human-readable encoding out as an
opaque capability of the signing collaborator.  The model below is an
injective, checksummed, executable encoding with the properties the
source relies on: `note1`/`nevent1` prefixes, payloads drawn from the
bech32 alphabet (a subset of `[a-z0-9]`, no second `1`), a 6-character
checksum, decode succeeding exactly on well-formed strings, and
encode/decode as mutual inverses.  Payload lengths differ from real
bech32 (the model maps each hex digit to one alphabet character) and
`nevent` relay TLV entries are not modelled — no claim touches either. -/

/-- The 32-character bech32 alphabet. -/
def bech32Charset : List Char := "qpzry9x8gf2tvdw0s3jn54khce6mua7l".data

/-- Lowercase hex digits. -/
def lowerHexChars : List Char := "0123456789abcdef".data

/-- Uppercase hex letter digits. -/
def upperHexChars : List Char := "ABCDEF".data

/-- Character class `[a-f0-9]` under the `i` flag. -/
def isHexCharCI (c : Char) : Bool :=
  lowerHexChars.contains c || upperHexChars.contains c

/-- Numeric value of a lowercase hex digit (0 for non-digits). -/
def hexDigitValD (c : Char) : Nat :=
  if c.isDigit then c.toNat - 48
  else if 97 ≤ c.toNat ∧ c.toNat ≤ 102 then c.toNat - 87
  else 0

/-- Lowercase hex digit character for a value below 16. -/
def hexDigitChar (d : Nat) : Char :=
  if d < 10 then Char.ofNat (48 + d) else Char.ofNat (87 + d)

/-- Bech32 alphabet character for a value below 32. -/
def encDigit (d : Nat) : Char := bech32Charset.getD d 'q'

/-- Inverse of `encDigit` restricted to the first 16 alphabet
characters: recovers a hex digit, or fails. -/
def decHexDigit (c : Char) : Option Char :=
  match bech32Charset.findIdx? (· = c) with
  | some i => if i < 16 then some (hexDigitChar i) else none
  | none => none

/-- Checksum state of the codec model: deterministic in the payload. -/
def bech32Polymod (payload : List Char) : Nat :=
  payload.foldl (fun a c => (a * 33 + c.toNat) % (32 ^ 6)) 1

/-- Six checksum characters of the codec model. -/
def bech32ChecksumChars (payload : List Char) : List Char :=
  let pm := bech32Polymod payload
  [encDigit (pm / 32 ^ 5 % 32), encDigit (pm / 32 ^ 4 % 32),
   encDigit (pm / 32 ^ 3 % 32), encDigit (pm / 32 ^ 2 % 32),
   encDigit (pm / 32 % 32), encDigit (pm % 32)]

/-- `nip19.noteEncode(hex)` — codec model.  Hex input of even length
(either case) is lowercased digitwise, mapped into the alphabet and
suffixed with the checksum; invalid hex throws in the source, which is
the `none` branch here. -/
def noteEncode (hex : String) : Option String :=
  let cs := hex.data
  if cs.length % 2 == 0 && cs.all isHexCharCI then
    let payload := cs.map (fun c => encDigit (hexDigitValD c.toLower))
    some (String.mk ("note1".data ++ payload ++ bech32ChecksumChars payload))
  else none

/-- Result of `nip19.decode` restricted to the two variants the source
inspects. -/
inductive Nip19Decoded where
  | note (id : String)
  | nevent (id : String) (relays : Option (List String))
deriving DecidableEq, Repr

/-- Digitwise inverse of the payload encoding: every character must be
one of the first 16 alphabet characters. -/
def decodeHexPayload : List Char → Option (List Char)
  | [] => some []
  | c :: rest =>
    match decHexDigit c, decodeHexPayload rest with
    | some d, some ds => some (d :: ds)
    | _, _ => none

/-- Decode a 64-digit payload plus 6-character checksum. -/
def decodePayload64 (rest : List Char) : Option String :=
  if rest.length = 70 then
    let payload := rest.take 64
    let chk := rest.drop 64
    if chk = bech32ChecksumChars payload then
      (decodeHexPayload payload).map String.mk
    else none
  else none

/-- `nip19.decode` — codec model for `note1`/`nevent1` strings; every
other input throws in the source (`none` here). -/
def nip19Decode (s : String) : Option Nip19Decoded :=
  let cs := s.data
  if "note1".data.isPrefixOf cs then
    (decodePayload64 (cs.drop 5)).map .note
  else if "nevent1".data.isPrefixOf cs then
    (decodePayload64 (cs.drop 7)).map (fun id => .nevent id none)
  else none

/-! ## Identifier extraction — `src/nostr.ts`

`extractEventId` runs `/(note1|nevent1)[a-z0-9]+/i` and, failing that,
`/[a-f0-9]{64}/i`; both are embedded as leftmost-match scanners with the
same alternation order, greediness and case folding. -/

/-- Character class `[a-z0-9]` under the `i` flag (ASCII only, as in
JavaScript without the `u` flag). -/
def isAlnumCI (c : Char) : Bool :=
  c.isDigit || c.isLower || c.isUpper

/-- Case-insensitive prefix test against a lowercase pattern. -/
def startsWithCI : List Char → List Char → Bool
  | [], _ => true
  | _ :: _, [] => false
  | p :: ps, c :: cs => c.toLower == p && startsWithCI ps cs

/-- One attempt of `/(note1|nevent1)[a-z0-9]+/i` at the current
position: the alternation tries `note1` first, then `nevent1`; the
matched text keeps the original case. -/
def bech32TryAt (s : List Char) : Option (List Char) :=
  if startsWithCI "note1".data s then
    let run := (s.drop 5).takeWhile isAlnumCI
    if run.isEmpty then none else some (s.take 5 ++ run)
  else if startsWithCI "nevent1".data s then
    let run := (s.drop 7).takeWhile isAlnumCI
    if run.isEmpty then none else some (s.take 7 ++ run)
  else none

/-- Leftmost match of `/(note1|nevent1)[a-z0-9]+/i`. -/
def bech32Search : List Char → Option (List Char)
  | [] => none
  | c :: rest =>
    match bech32TryAt (c :: rest) with
    | some m => some m
    | none => bech32Search rest

/-- One attempt of `/[a-f0-9]{64}/i` at the current position: exactly
64 consecutive hex characters. -/
def hexTryAt (s : List Char) : Option (List Char) :=
  let first64 := s.take 64
  if first64.length == 64 && first64.all isHexCharCI then some first64 else none

/-- Leftmost match of `/[a-f0-9]{64}/i`. -/
def hexSearch : List Char → Option (List Char)
  | [] => none
  | c :: rest =>
    match hexTryAt (c :: rest) with
    | some m => some m
    | none => hexSearch rest

/-- `String.prototype.trim` over the character list (whitespace at both
ends removed; the ASCII whitespace characters model the JavaScript
whitespace class). -/
def trimChars (cs : List Char) : List Char :=
  ((cs.dropWhile Char.isWhitespace).reverse.dropWhile Char.isWhitespace).reverse

/-- `extractEventId(link)`: trim, search for a bech32 identifier, fall
back to a raw 64-hex id re-encoded through `nip19.noteEncode` (whose
throw is caught into `null`), else `null`. -/
def extractEventId (link : String) : Option String :=
  let clean := trimChars link.data
  match bech32Search clean with
  | some m => some (String.mk m)
  | none =>
    match hexSearch clean with
    | some m =>
      match noteEncode (String.mk m) with
      | some encoded => some encoded
      | none => none
    | none => none

/-- `decodeEventId(eventId)`: dispatch on the `note1`/`nevent1` prefix,
decode, and match the decoded type; any decoding throw is caught into
`null`. -/
def decodeEventId (eventId : String) : Option (String × Option (List String)) :=
  if "note1".data.isPrefixOf eventId.data then
    match nip19Decode eventId with
    | some (.note id) => some (id, none)
    | _ => none
  else if "nevent1".data.isPrefixOf eventId.data then
    match nip19Decode eventId with
    | some (.nevent id relays) => some (id, relays)
    | _ => none
  else none

/-! ## Events and the relay network — `src/nostr.ts`

The relay pool is modelled as a list of events; `pool.get` returns the
first match, `pool.querySync` filters by the `kinds`, `authors` and `#e`
constraints the source passes.  Each fallible helper takes its own
failure flag: the source wraps every pool call in `try`/`catch` and
degrades to `null`/`[]`/zero counts. -/

/-- `ProfileData` — kind-0 metadata fields the source reads. -/
structure ProfileData where
  name : Option String
  display_name : Option String
  picture : Option String
  nip05 : Option String
  about : Option String
  lud16 : Option String
deriving DecidableEq, Repr

/-- A Nostr event.  `profileContent` models the result of
`JSON.parse(event.content)` as profile metadata (`none` means the parse
throws); it is consulted only for kind-0 events. -/
structure Event where
  id : String
  pubkey : String
  created_at : Int
  kind : Nat
  tags : List (List String)
  content : String
  profileContent : Option ProfileData
deriving DecidableEq, Repr

/-- `ReactionCounts` — tallies by reaction type. -/
structure ReactionCounts where
  likes : Int
  reposts : Int
  zaps : Int
  replies : Int
deriving DecidableEq, Repr

/-- The relay `#e` filter: the event carries a tag `["e", eventId, …]`. -/
def hasETag (e : Event) (eventId : String) : Bool :=
  e.tags.any fun t =>
    match t with
    | "e" :: v :: _ => v = eventId
    | _ => false

/-- `pool.querySync(relays, {kinds, '#e': [eventId]})`. -/
def querySyncByRef (network : List Event) (kinds : List Nat) (eventId : String) :
    List Event :=
  network.filter fun e => kinds.contains e.kind && hasETag e eventId

/-- `pool.querySync(relays, {kinds, authors: [pubkey], '#e': [eventId]})`. -/
def querySyncByAuthorRef (network : List Event) (kinds : List Nat)
    (eventId : String) (pubkey : String) : List Event :=
  network.filter fun e =>
    kinds.contains e.kind && e.pubkey == pubkey && hasETag e eventId

/-- `fetchEvent(eventId, relays)` — `pool.get({ids: [eventId]})`, with
the `catch` branch returning `null` when the pool call fails. -/
def fetchEvent (failed : Bool) (network : List Event) (eventId : String) :
    Option Event :=
  if failed then none else network.find? (fun e => e.id == eventId)

/-- `fetchAuthorProfile(pubkey, relays)` — `pool.get({kinds: [0],
authors: [pubkey]})`; the content is JSON-parsed when the event exists
and its content is truthy (non-empty), and every failure path returns
`null`. -/
def fetchAuthorProfile (failed : Bool) (network : List Event) (pubkey : String) :
    Option ProfileData :=
  if failed then none
  else
    match network.find? (fun e => e.kind == 0 && e.pubkey == pubkey) with
    | some ev => if ev.content ≠ "" then ev.profileContent else none
    | none => none

/-- Substring test (JavaScript `String.prototype.includes`). -/
def containsSub (needle : List Char) : List Char → Bool
  | [] => needle.isEmpty
  | c :: rest => needle.isPrefixOf (c :: rest) || containsSub needle rest

/-- The like-content test the source applies to a kind-7 reaction after
lowercasing: `content === '+' || content === '' ||
content.includes('❤️') || content.includes('👍')`. -/
def isLikeContent (content : String) : Bool :=
  let lc := content.data.map Char.toLower
  lc = "+".data || lc = [] || containsSub "❤️".data lc || containsSub "👍".data lc

/-- `fetchReactions(eventId, relays)`: three `querySync` calls (kinds
7/6, kind 1, kind 9735 each with `#e`), then the tally — kind 7 counts
as a like only when its content passes the like test, kind 6 always
counts as a repost.  On any pool failure the all-zero counts are
returned. -/
def fetchReactions (failed : Bool) (network : List Event) (eventId : String) :
    ReactionCounts :=
  if failed then { likes := 0, reposts := 0, zaps := 0, replies := 0 }
  else
    let reactionEvents := querySyncByRef network [7, 6] eventId
    let replyEvents := querySyncByRef network [1] eventId
    let zapEvents := querySyncByRef network [9735] eventId
    { likes := ((reactionEvents.filter
        (fun e => e.kind == 7 && isLikeContent e.content)).length : Int)
      reposts := ((reactionEvents.filter (fun e => e.kind == 6)).length : Int)
      zaps := (zapEvents.length : Int)
      replies := (replyEvents.length : Int) }

/-- Stable insertion of an event into a list sorted by descending
`created_at` (models the comparator `(a, b) => b.created_at -
a.created_at`). -/
def insertByCreatedDesc (e : Event) : List Event → List Event
  | [] => [e]
  | x :: xs =>
    if e.created_at ≤ x.created_at then x :: insertByCreatedDesc e xs
    else e :: x :: xs

/-- `Array.prototype.sort` with the descending-`created_at` comparator. -/
def sortByCreatedDesc (l : List Event) : List Event :=
  l.foldr insertByCreatedDesc []

/-- `fetchReplies(eventId, relays)`: kind-1 events referencing the id,
newest first; `[]` on pool failure. -/
def fetchReplies (failed : Bool) (network : List Event) (eventId : String) :
    List Event :=
  if failed then []
  else sortByCreatedDesc (querySyncByRef network [1] eventId)

/-- `fetchUserLikedEvent(eventId, userPubkey, relays)`: does any kind-7
reaction by this author on this event pass the like test; `false` on
pool failure. -/
def fetchUserLikedEvent (failed : Bool) (network : List Event)
    (eventId : String) (pubkey : String) : Bool :=
  if failed then false
  else (querySyncByAuthorRef network [7] eventId pubkey).any
    (fun e => isLikeContent e.content)

/-- `fetchUserReplies(eventId, userPubkey, relays)`: the author's own
kind-1 replies, newest first; `[]` on pool failure. -/
def fetchUserReplies (failed : Bool) (network : List Event)
    (eventId : String) (pubkey : String) : List Event :=
  if failed then []
  else sortByCreatedDesc (querySyncByAuthorRef network [1] eventId pubkey)

/-! ## Content parsing — `parseContent` in `src/nostr.ts` -/

/-- Image extensions of `/\.(jpg|jpeg|png|gif|webp)(\?.*)?$/i`. -/
def imageExts : List String := ["jpg", "jpeg", "png", "gif", "webp"]

/-- Video extensions of `/\.(mp4|webm|mov)(\?.*)?$/i`. -/
def videoExts : List String := ["mp4", "webm", "mov"]

/-- `/\.(ext…)(\?.*)?$/i` holds exactly when the lowercased URL ends in
`.ext` or contains `.ext?` (the optional query group then reaches the
end). -/
def matchesExt (exts : List String) (url : String) : Bool :=
  let lc := url.data.map Char.toLower
  exts.any fun e =>
    ("." ++ e).data.isSuffixOf lc || containsSub ("." ++ e ++ "?").data lc

/-- One step of the global regex `/(https?:\/\/[^\s]+)/g`: collect the
non-overlapping URL matches left to right and drop them from the text,
as `content.match` and `content.replace` do. -/
def urlScan : List Char → List Char × List String
  | [] => ([], [])
  | c :: rest =>
    let s := c :: rest
    if "https://".data.isPrefixOf s || "http://".data.isPrefixOf s then
      let plen := if "https://".data.isPrefixOf s then 8 else 7
      let run := (s.drop plen).takeWhile (fun ch => !ch.isWhitespace)
      if run.isEmpty then
        let (t, us) := urlScan rest
        (c :: t, us)
      else
        let (t, us) := urlScan (s.drop (plen + run.length))
        (t, String.mk (s.take plen ++ run) :: us)
    else
      let (t, us) := urlScan rest
      (c :: t, us)
termination_by s => s.length
decreasing_by
  all_goals simp [List.length_drop]
  all_goals split <;> omega

/-- Parsed content: text with URLs removed, plus media URLs. -/
structure ParsedContent where
  text : String
  images : List String
  videos : List String
deriving DecidableEq, Repr

/-- `parseContent(content)`: find all URLs, classify them by extension,
strip them from the text and trim it. -/
def parseContent (content : String) : ParsedContent :=
  let scanned := urlScan content.data
  { text := (String.mk scanned.1).trim
    images := scanned.2.filter (matchesExt imageExts)
    videos := scanned.2.filter (matchesExt videoExts) }

/-! ## Publishing — `publishEvent`/`publishReply`/`publishLike`

Signing is the external signing collaborator and relay delivery is the
network collaborator; the model takes the signed event and a success
flag.  A rejected `pool.publish` hits the source's `catch` and yields
`null`. -/

/-- `publishEvent(privateKeyHex, content, kind, tags, relays)` —
returns the signed event on success, `null` when publishing fails. -/
def publishEvent (signedEvent : Event) (publishOk : Bool) : Option Event :=
  if publishOk then some signedEvent else none

/-- `publishReply(...)` — a kind-1 event with `e`/`p` tags, delegated to
`publishEvent`. -/
def publishReply (signedReply : Event) (publishOk : Bool) : Option Event :=
  publishEvent signedReply publishOk

/-- `publishLike(...)` — a kind-7 `+` reaction, delegated to
`publishEvent`. -/
def publishLike (signedLike : Event) (publishOk : Bool) : Option Event :=
  publishEvent signedLike publishOk

/-! ## Post preview hook — `src/hooks/usePostPreview.ts`

`fetchData`, `postReply` and `toggleLike` are embedded as pure state
transformers.  React state (`data`) and the durable activity ledger
(read by `getUserActivity`, written by the record/remove operations) are
passed explicitly; the network and every external outcome live in a
`FetchEnv` oracle. -/

/-- The hook's `data` state (`PostPreviewData`).  The source's final
`setData` in `fetchData` does not carry an `isSavedByUser` field, so
none is modelled. -/
structure PostPreviewData where
  event : Option Event
  profile : Option ProfileData
  reactions : ReactionCounts
  parsedContent : ParsedContent
  isLoading : Bool
  error : Option String
  isVerified : Bool
  replies : List Event
  userActivity : UserActivity
  isLikedByUser : Bool
  userReplies : List Event
deriving DecidableEq, Repr

/-- The hook's initial `useState` value. -/
def initialPostPreviewData : PostPreviewData :=
  { event := none, profile := none
    reactions := { likes := 0, reposts := 0, zaps := 0, replies := 0 }
    parsedContent := { text := "", images := [], videos := [] }
    isLoading := true, error := none, isVerified := false, replies := []
    userActivity := getDefaultActivity, isLikedByUser := false
    userReplies := [] }

/-- External outcomes of one `fetchData` run: the relay-visible events,
one failure flag per wrapped pool call, the out-of-band NIP-05
verification outcome, and the unlocked session identity
(`getIdentityState().publicKey` with `isLocked == false` holds exactly
when the session cache holds a key). -/
structure FetchEnv where
  network : List Event
  eventFetchFails : Bool
  profileFetchFails : Bool
  reactionsFetchFails : Bool
  repliesFetchFails : Bool
  userFetchFails : Bool
  nip05Verified : Bool
  sessionPubkey : Option String
deriving Repr

/-- `fetchData()`: decode the identifier, fetch the event, fetch
profile/reactions/replies in parallel, verify NIP-05, and — when an
unlocked identity exists — reconcile a network-confirmed like into the
local ledger before building the snapshot.  Returns the new `data`
state and the new durable ledger. -/
def fetchData (eventId : Option String) (env : FetchEnv)
    (activity : UserActivity) (prev : PostPreviewData) :
    PostPreviewData × UserActivity :=
  match eventId with
  | none =>
    ({ prev with isLoading := false, error := some "No event ID provided" },
     activity)
  | some eid =>
    match decodeEventId eid with
    | none =>
      ({ prev with isLoading := false, error := some "Invalid event ID" },
       activity)
    | some decoded =>
      match fetchEvent env.eventFetchFails env.network decoded.1 with
      | none =>
        ({ prev with
            isLoading := false
            error := some "Event not found. It may not exist on the relays." },
         activity)
      | some event =>
        let parsedContent := parseContent event.content
        let profile := fetchAuthorProfile env.profileFetchFails env.network
          event.pubkey
        let reactions := fetchReactions env.reactionsFetchFails env.network
          decoded.1
        let replies := fetchReplies env.repliesFetchFails env.network decoded.1
        let isVerified :=
          match profile with
          | some p => if p.nip05.isSome then env.nip05Verified else false
          | none => false
        let isLikedLocal := hasLikedEvent event.id activity
        match env.sessionPubkey with
        | some pubkey =>
          let networkLiked := fetchUserLikedEvent env.userFetchFails env.network
            decoded.1 pubkey
          let reconciled :=
            if networkLiked && !isLikedLocal then (recordLike event.id activity, true)
            else (activity, isLikedLocal)
          let userReplies := fetchUserReplies env.userFetchFails env.network
            decoded.1 pubkey
          ({ event := some event, profile := profile, reactions := reactions
             parsedContent := parsedContent, isLoading := false, error := none
             isVerified := isVerified, replies := replies
             userActivity := reconciled.1, isLikedByUser := reconciled.2
             userReplies := userReplies }, reconciled.1)
        | none =>
          ({ event := some event, profile := profile, reactions := reactions
             parsedContent := parsedContent, isLoading := false, error := none
             isVerified := isVerified, replies := replies
             userActivity := activity, isLikedByUser := isLikedLocal
             userReplies := [] }, activity)

/-- `postReply(privateKey, content)`: publish, and only on success
record the reply in the ledger and prepend it to both reply lists.
`publishResult` is the outcome of `publishReply`. -/
def postReply (publishResult : Option Event) (data : PostPreviewData)
    (activity : UserActivity) :
    Option Event × PostPreviewData × UserActivity :=
  match data.event with
  | none => (none, data, activity)
  | some ev =>
    match publishResult with
    | some replyEvent =>
      let activity2 := recordReply ev.id activity
      (some replyEvent,
       { data with
          replies := replyEvent :: data.replies
          userReplies := replyEvent :: data.userReplies
          userActivity := activity2 },
       activity2)
    | none => (none, data, activity)

/-- Result of one `toggleLike` call: the returned event, the new `data`
state, the new ledger, and whether `publishLike` was invoked at all. -/
structure ToggleLikeResult where
  result : Option Event
  data : PostPreviewData
  activity : UserActivity
  publishAttempted : Bool
deriving Repr

/-- `toggleLike(privateKey)`: when already liked per the local ledger,
a purely local unlike (no publish, returns `null`); otherwise publish a
reaction and record it only on success.  `publishResult` is the outcome
of `publishLike`. -/
def toggleLike (publishResult : Option Event) (data : PostPreviewData)
    (activity : UserActivity) : ToggleLikeResult :=
  match data.event with
  | none => { result := none, data := data, activity := activity
              publishAttempted := false }
  | some ev =>
    if hasLikedEvent ev.id activity then
      let activity2 := removeLike ev.id activity
      { result := none
        data := { data with
                   isLikedByUser := false
                   reactions := { data.reactions with
                     likes := max 0 (data.reactions.likes - 1) }
                   userActivity := activity2 }
        activity := activity2
        publishAttempted := false }
    else
      match publishResult with
      | some likeEvent =>
        let activity2 := recordLike ev.id activity
        { result := some likeEvent
          data := { data with
                     isLikedByUser := true
                     reactions := { data.reactions with
                       likes := data.reactions.likes + 1 }
                     userActivity := activity2 }
          activity := activity2
          publishAttempted := true }
      | none => { result := none, data := data, activity := activity
                  publishAttempted := true }

/-! ## Like-count display — `renderEvent` in `src/pages/PreviewPage.tsx` -/

/-- The like count the reactions bar renders:
`reactions.likes + (isLikedByUser ? 1 : 0)`. -/
def displayedLikeCount (data : PostPreviewData) : Int :=
  data.reactions.likes + (if data.isLikedByUser then 1 else 0)

/-! ## Derived notions and concrete scenarios used by the statements -/

/-- A 64-character lowercase hexadecimal string. -/
def isLowerHex64 (s : String) : Bool :=
  s.data.length == 64 && s.data.all (fun c => lowerHexChars.contains c)

/-- The ActivityLedger invariant: every derived count equals the size of
its set. -/
def activityCountsInvariant (a : UserActivity) : Prop :=
  a.likes = a.likedEvents.length ∧
  a.saves = a.savedEvents.length ∧
  a.replies = a.replyEvents.length

/-- Failing input for the like-count display: the raw id of the content
item. -/
def c1EventId : String :=
  "aa11bb22cc33dd44ee55ff660011223344556677889900aabbccddeeff001122"

/-- Failing input: the content event itself. -/
def c1ContentEvent : Event :=
  { id := c1EventId, pubkey := "f00d", created_at := 100, kind := 1
    tags := [], content := "hello world", profileContent := none }

/-- Failing input: the current identity's own, already network-confirmed
`+` reaction on the content item. -/
def c1OwnLike : Event :=
  { id := "c1like", pubkey := "a11ce", created_at := 200, kind := 7
    tags := [["e", c1EventId], ["p", "f00d"]], content := "+"
    profileContent := none }

/-- Failing input: a healthy network whose only reaction to the item is
the current identity's own like, with that identity unlocked and the
local ledger empty. -/
def c1Env : FetchEnv :=
  { network := [c1ContentEvent, c1OwnLike], eventFetchFails := false
    profileFetchFails := false, reactionsFetchFails := false
    repliesFetchFails := false, userFetchFails := false
    nip05Verified := false, sessionPubkey := some "a11ce" }

/-- The fetch of the failing input, from the all-zero ledger. -/
def c1Run : PostPreviewData × UserActivity :=
  fetchData (noteEncode c1EventId) c1Env getDefaultActivity initialPostPreviewData

/-- Concrete raw id for the profile-failure scenario. -/
def c8EventId : String :=
  "00112233445566778899aabbccddeeff00112233445566778899aabbccddeeff"

/-- Concrete content event for the profile-failure scenario. -/
def c8ContentEvent : Event :=
  { id := c8EventId, pubkey := "beef", created_at := 50, kind := 1
    tags := [], content := "hi there", profileContent := none }

/-- Network environment in which the author-profile fetch fails with a
network error while everything else succeeds. -/
def c8Env : FetchEnv :=
  { network := [c8ContentEvent], eventFetchFails := false
    profileFetchFails := true, reactionsFetchFails := false
    repliesFetchFails := false, userFetchFails := false
    nip05Verified := false, sessionPubkey := none }

/-- The `note1` identifier of the profile-failure scenario. -/
def c8Note : String := (noteEncode c8EventId).getD ""

/-! ## Theorems -/

/-- C2: for every password P and hex private key K (and any salt and
IV), decrypting the encryption of K under P with the same P returns K:
`decryptIdentity(encryptIdentity(K, P), P) == K`. -/
theorem decrypt_encrypt_same_password (K P : String) (salt iv : List Nat) :
    decryptIdentity (encryptIdentity K P salt iv) P = some K := by
  simp [decryptIdentity, encryptIdentity, deriveKey, aesGcmEncrypt, aesGcmDecrypt]

/-- C3: decryption fails closed — with a different password the result
is `null`, and likewise on a corrupted record (here: a tampered IV, so
the AEAD tag check fails); the `Option` result is the source's
`try`/`catch` returning `null` instead of throwing. -/
theorem decrypt_fails_closed (K P Pbad : String) (salt iv iv2 : List Nat)
    (hP : P ≠ Pbad) (hiv : iv2 ≠ iv) :
    decryptIdentity (encryptIdentity K P salt iv) Pbad = none ∧
    decryptIdentity { encryptIdentity K P salt iv with iv := iv2 } P = none := by
  constructor
  · simp [decryptIdentity, encryptIdentity, deriveKey, aesGcmEncrypt,
      aesGcmDecrypt, DerivedKey.mk.injEq]
    intro h
    exact absurd h hP
  · simp [decryptIdentity, encryptIdentity, deriveKey, aesGcmEncrypt,
      aesGcmDecrypt]
    intro h
    exact absurd h.symm hiv

/-- C3 witness: the scenario pair of passwords from the spec. -/
theorem decrypt_fails_closed_witness :
    decryptIdentity
        (encryptIdentity "a1b2" "correcthorse" [1] [2]) "wrong1234" = none ∧
    decryptIdentity
        { encryptIdentity "a1b2" "correcthorse" [1] [2] with iv := [3] }
        "correcthorse" = none :=
  decrypt_fails_closed "a1b2" "correcthorse" "wrong1234" [1] [2] [3]
    (by decide) (by decide)

/-- C5: with a valid password, creating an identity while a durable
identity record exists fails with the AlreadyExists error and returns
the store unchanged (the stored record is persisted as its JSON
serialization, which is injective, so record equality is byte-for-byte
equality). -/
theorem createEncryptedIdentity_already_exists (password : String)
    (kp : Keypair) (salt iv : List Nat) (storeOk : Bool)
    (rec : EncryptedIdentity)
    (hval : (validatePassword password).1 = true) :
    createEncryptedIdentity password kp salt iv storeOk (some rec) =
      ({ publicKey := "", error := some "Identity already exists" }, some rec) := by
  simp [createEncryptedIdentity, hasEncryptedIdentity, hval]

/-- C5 witness: a concrete existing record and a valid password. -/
theorem createEncryptedIdentity_already_exists_witness :
    createEncryptedIdentity "correcthorse" { privateKey := "sk", publicKey := "pk" }
        [1] [2] true
        (some { ciphertext := .aesGcm { password := "old", salt := [9] } [8] "k"
                iv := [8], salt := [9] }) =
      ({ publicKey := "", error := some "Identity already exists" },
       some { ciphertext := .aesGcm { password := "old", salt := [9] } [8] "k"
              iv := [8], salt := [9] }) :=
  createEncryptedIdentity_already_exists "correcthorse"
    { privateKey := "sk", publicKey := "pk" } [1] [2] true
    { ciphertext := .aesGcm { password := "old", salt := [9] } [8] "k"
      iv := [8], salt := [9] }
    (by decide)

/-- C6: when the network publish step fails, `postReply` returns `null`
and leaves the data state and the activity ledger (in particular
`replies` and `replyEvents`) exactly as they were; the reply is recorded
only on publish success. -/
theorem postReply_publish_failure (data : PostPreviewData)
    (activity : UserActivity) :
    postReply none data activity = (none, data, activity) := by
  cases h : data.event <;> simp [postReply, h]

/-- Preservation of a predicate along a run of ledger operations. -/
theorem runActivityOps_preserves (P : UserActivity → Prop)
    (hstep : ∀ op a, P a → P (applyActivityOp op a)) :
    ∀ (ops : List ActivityOp) (a : UserActivity), P a → P (runActivityOps ops a) := by
  intro ops
  induction ops with
  | nil => intro a h; simpa [runActivityOps] using h
  | cons op rest ih =>
    intro a h
    simpa [runActivityOps] using ih (applyActivityOp op a) (hstep op a h)

/-- One ledger operation keeps every count equal to its set's size. -/
theorem applyActivityOp_counts (op : ActivityOp) (a : UserActivity)
    (h : activityCountsInvariant a) :
    activityCountsInvariant (applyActivityOp op a) := by
  obtain ⟨h1, h2, h3⟩ := h
  cases op with
  | like id =>
    by_cases hm : id ∈ a.likedEvents
    · simpa [applyActivityOp, recordLike, hm, activityCountsInvariant] using
        ⟨h1, h2, h3⟩
    · simp [applyActivityOp, recordLike, hm, activityCountsInvariant, h2, h3]
      omega
  | unlike id =>
    by_cases hm : id ∈ a.likedEvents
    · have hpos : 0 < a.likedEvents.length := List.length_pos.mpr
        (List.ne_nil_of_mem hm)
      simp [applyActivityOp, removeLike, hm, activityCountsInvariant, h1, h2,
        h3, List.length_erase_of_mem hm]
      omega
    · simpa [applyActivityOp, removeLike, hm, activityCountsInvariant] using
        ⟨h1, h2, h3⟩
  | save id =>
    by_cases hm : id ∈ a.savedEvents
    · simpa [applyActivityOp, recordSave, hm, activityCountsInvariant] using
        ⟨h1, h2, h3⟩
    · simp [applyActivityOp, recordSave, hm, activityCountsInvariant, h1, h3]
      omega
  | unsave id =>
    by_cases hm : id ∈ a.savedEvents
    · have hpos : 0 < a.savedEvents.length := List.length_pos.mpr
        (List.ne_nil_of_mem hm)
      simp [applyActivityOp, removeSave, hm, activityCountsInvariant, h1, h2,
        h3, List.length_erase_of_mem hm]
      omega
    · simpa [applyActivityOp, removeSave, hm, activityCountsInvariant] using
        ⟨h1, h2, h3⟩
  | reply id =>
    by_cases hm : id ∈ a.replyEvents
    · simpa [applyActivityOp, recordReply, hm, activityCountsInvariant] using
        ⟨h1, h2, h3⟩
    · simp [applyActivityOp, recordReply, hm, activityCountsInvariant, h1, h2]
      omega

/-- C4: from the default all-zero record, after every finite sequence
of record/remove operations each derived count equals the size of its
set — `likes == |likedEvents|`, `saves == |savedEvents|`,
`replies == |replyEvents|` — and no count is ever negative. -/
theorem activity_counts_match_sets (ops : List ActivityOp) :
    activityCountsInvariant (runActivityOps ops getDefaultActivity) ∧
    0 ≤ (runActivityOps ops getDefaultActivity).likes ∧
    0 ≤ (runActivityOps ops getDefaultActivity).saves ∧
    0 ≤ (runActivityOps ops getDefaultActivity).replies := by
  have hinv : activityCountsInvariant (runActivityOps ops getDefaultActivity) :=
    runActivityOps_preserves activityCountsInvariant applyActivityOp_counts ops
      getDefaultActivity (by simp [activityCountsInvariant, getDefaultActivity])
  obtain ⟨h1, h2, h3⟩ := hinv
  refine ⟨⟨h1, h2, h3⟩, ?_, ?_, ?_⟩ <;> omega

/-- One ledger operation keeps all three event lists duplicate-free. -/
theorem applyActivityOp_nodup (op : ActivityOp) (a : UserActivity)
    (h : a.likedEvents.Nodup ∧ a.savedEvents.Nodup ∧ a.replyEvents.Nodup) :
    (applyActivityOp op a).likedEvents.Nodup ∧
    (applyActivityOp op a).savedEvents.Nodup ∧
    (applyActivityOp op a).replyEvents.Nodup := by
  obtain ⟨h1, h2, h3⟩ := h
  cases op with
  | like id =>
    by_cases hm : id ∈ a.likedEvents
    · simpa [applyActivityOp, recordLike, hm] using ⟨h1, h2, h3⟩
    · simp [applyActivityOp, recordLike, hm, List.nodup_append, h1, h2, h3]
  | unlike id =>
    by_cases hm : id ∈ a.likedEvents
    · simpa [applyActivityOp, removeLike, hm] using ⟨h1.erase id, h2, h3⟩
    · simpa [applyActivityOp, removeLike, hm] using ⟨h1, h2, h3⟩
  | save id =>
    by_cases hm : id ∈ a.savedEvents
    · simpa [applyActivityOp, recordSave, hm] using ⟨h1, h2, h3⟩
    · simp [applyActivityOp, recordSave, hm, List.nodup_append, h1, h2, h3]
  | unsave id =>
    by_cases hm : id ∈ a.savedEvents
    · simpa [applyActivityOp, removeSave, hm] using ⟨h1, h2.erase id, h3⟩
    · simpa [applyActivityOp, removeSave, hm] using ⟨h1, h2, h3⟩
  | reply id =>
    by_cases hm : id ∈ a.replyEvents
    · simpa [applyActivityOp, recordReply, hm] using ⟨h1, h2, h3⟩
    · simp [applyActivityOp, recordReply, hm, List.nodup_append, h1, h2, h3]

/-- C10: from the default all-zero record, after every finite sequence
of record/remove operations none of `likedEvents`, `savedEvents`,
`replyEvents` contains a duplicate id — the record operations guard
insertion on membership, so the lists behave as sets. -/
theorem activity_lists_nodup (ops : List ActivityOp) :
    (runActivityOps ops getDefaultActivity).likedEvents.Nodup ∧
    (runActivityOps ops getDefaultActivity).savedEvents.Nodup ∧
    (runActivityOps ops getDefaultActivity).replyEvents.Nodup :=
  runActivityOps_preserves
    (fun a => a.likedEvents.Nodup ∧ a.savedEvents.Nodup ∧ a.replyEvents.Nodup)
    applyActivityOp_nodup ops getDefaultActivity
    (by simp [getDefaultActivity])

/-- C9: when the content item is already in the local ledger's
`likedEvents`, `toggleLike` never invokes the publish step, clears the
local like, decrements the displayed count (floored at zero) and
returns `null`; and a failed like publish in the not-liked state also
returns `null` (with the publish attempted) — so a `null` return does
not distinguish a successful local unlike from a failed like publish. -/
theorem toggleLike_already_liked_is_local (publishResult : Option Event)
    (data : PostPreviewData) (activity : UserActivity) (ev : Event)
    (hev : data.event = some ev)
    (hliked : hasLikedEvent ev.id activity = true) :
    (toggleLike publishResult data activity).result = none ∧
    (toggleLike publishResult data activity).publishAttempted = false ∧
    (toggleLike publishResult data activity).activity =
      removeLike ev.id activity ∧
    (toggleLike publishResult data activity).data.isLikedByUser = false ∧
    (toggleLike publishResult data activity).data.reactions.likes =
      max 0 (data.reactions.likes - 1) ∧
    (∀ (d2 : PostPreviewData) (a2 : UserActivity) (e2 : Event),
      d2.event = some e2 → hasLikedEvent e2.id a2 = false →
      (toggleLike none d2 a2).result = none ∧
      (toggleLike none d2 a2).publishAttempted = true ∧
      (toggleLike none d2 a2).activity = a2) := by
  refine ⟨?_, ?_, ?_, ?_, ?_, ?_⟩
  · simp [toggleLike, hev, hliked]
  · simp [toggleLike, hev, hliked]
  · simp [toggleLike, hev, hliked]
  · simp [toggleLike, hev, hliked]
  · simp [toggleLike, hev, hliked]
  · intro d2 a2 e2 hev2 hnl
    refine ⟨?_, ?_, ?_⟩ <;> simp [toggleLike, hev2, hnl]

/-- C9 witness: a concrete already-liked state, and a concrete
not-liked state with a failing publish. -/
theorem toggleLike_already_liked_is_local_witness :
    ({ initialPostPreviewData with event := some c1ContentEvent
       } : PostPreviewData).event = some c1ContentEvent ∧
    hasLikedEvent c1ContentEvent.id (recordLike c1EventId getDefaultActivity) = true ∧
    (toggleLike none { initialPostPreviewData with event := some c1ContentEvent }
        (recordLike c1EventId getDefaultActivity)).result = none ∧
    (toggleLike none { initialPostPreviewData with event := some c1ContentEvent }
        (recordLike c1EventId getDefaultActivity)).publishAttempted = false ∧
    hasLikedEvent c1ContentEvent.id getDefaultActivity = false ∧
    (toggleLike none { initialPostPreviewData with event := some c1ContentEvent }
        getDefaultActivity).result = none ∧
    (toggleLike none { initialPostPreviewData with event := some c1ContentEvent }
        getDefaultActivity).publishAttempted = true := by
  have h := toggleLike_already_liked_is_local none
    { initialPostPreviewData with event := some c1ContentEvent }
    (recordLike c1EventId getDefaultActivity) c1ContentEvent
    (by decide) (by decide)
  have h2 := h.2.2.2.2.2
    { initialPostPreviewData with event := some c1ContentEvent }
    getDefaultActivity c1ContentEvent (by decide) (by decide)
  exact ⟨by decide, by decide, h.1, h.2.1, by decide, h2.1, h2.2.1⟩

set_option maxRecDepth 100000 in
/-- C1: the code at the failing input.  The network holds exactly one
like for the item — the current identity's own, already-confirmed `+`
reaction — so the aggregate tally is 1 and already reflects that like.
The fetch-time reconciliation records it into the empty local ledger and
sets `isLikedByUser`, after which the reactions bar renders the network
tally plus one: the display shows 2 where the identity's like counted
exactly once gives 1 — the like is double-counted, contradicting the
ordering guarantee that the optimistic +1 is added only when the tally
does not yet reflect it. -/
theorem fetchData_double_counts_confirmed_like :
    (fetchReactions false c1Env.network c1EventId).likes = 1 ∧
    c1Run.1.reactions = fetchReactions false c1Env.network c1EventId ∧
    c1Run.1.isLikedByUser = true ∧
    c1Run.2.likedEvents = [c1EventId] ∧
    displayedLikeCount c1Run.1 = 2 := by
  decide

/-- C8: when the content event is found but the author-profile fetch
fails with a network error, `fetchData` still produces a successful
snapshot — no overall failure (`error == null`, loading finished),
`authorProfile == null` and `isVerified == false` — while the event,
reactions, replies and parsed content are populated as usual. -/
theorem fetchData_degrades_on_profile_failure (eid rid : String)
    (relays : Option (List String)) (env : FetchEnv)
    (activity : UserActivity) (prev : PostPreviewData) (ev : Event)
    (hprof : env.profileFetchFails = true)
    (hdec : decodeEventId eid = some (rid, relays))
    (hev : fetchEvent env.eventFetchFails env.network rid = some ev) :
    (fetchData (some eid) env activity prev).1.error = none ∧
    (fetchData (some eid) env activity prev).1.isLoading = false ∧
    (fetchData (some eid) env activity prev).1.profile = none ∧
    (fetchData (some eid) env activity prev).1.isVerified = false ∧
    (fetchData (some eid) env activity prev).1.event = some ev ∧
    (fetchData (some eid) env activity prev).1.reactions =
      fetchReactions env.reactionsFetchFails env.network rid ∧
    (fetchData (some eid) env activity prev).1.replies =
      fetchReplies env.repliesFetchFails env.network rid ∧
    (fetchData (some eid) env activity prev).1.parsedContent =
      parseContent ev.content := by
  have hpr : fetchAuthorProfile env.profileFetchFails env.network ev.pubkey
      = none := by
    simp [fetchAuthorProfile, hprof]
  cases hsp : env.sessionPubkey <;>
    simp [fetchData, hdec, hev, hpr, hsp]

set_option maxRecDepth 100000 in
/-- C8 witness: the concrete profile-failure scenario. -/
theorem fetchData_degrades_on_profile_failure_witness :
    c8Env.profileFetchFails = true ∧
    decodeEventId c8Note = some (c8EventId, none) ∧
    fetchEvent c8Env.eventFetchFails c8Env.network c8EventId =
      some c8ContentEvent ∧
    (fetchData (some c8Note) c8Env getDefaultActivity
        initialPostPreviewData).1.profile = none ∧
    (fetchData (some c8Note) c8Env getDefaultActivity
        initialPostPreviewData).1.isVerified = false ∧
    (fetchData (some c8Note) c8Env getDefaultActivity
        initialPostPreviewData).1.error = none := by
  have h := fetchData_degrades_on_profile_failure c8Note c8EventId none c8Env
    getDefaultActivity initialPostPreviewData c8ContentEvent
    (by decide) (by decide) (by decide)
  exact ⟨by decide, by decide, by decide, h.2.2.1, h.2.2.2.1, h.1⟩

/-- Facts about every lowercase hex digit, checked by evaluation: it is
not whitespace, it is in the case-insensitive hex class, its lowercase
form is not `n` and is itself, and the payload digit encoding inverts. -/
theorem lowerHex_facts : ∀ c ∈ lowerHexChars,
    Char.isWhitespace c = false ∧ isHexCharCI c = true ∧
    ¬ c.toLower = 'n' ∧ c.toLower = c ∧
    decHexDigit (encDigit (hexDigitValD c)) = some c := by
  decide

/-- A list none of whose elements satisfy `p` is untouched by
`dropWhile`. -/
theorem dropWhile_eq_self_of (p : Char → Bool) (cs : List Char)
    (h : ∀ c ∈ cs, p c = false) : cs.dropWhile p = cs := by
  cases cs with
  | nil => rfl
  | cons c rest => simp [List.dropWhile_cons, h c (by simp)]

/-- Trimming a whitespace-free list is the identity. -/
theorem trimChars_eq_self (cs : List Char)
    (h : ∀ c ∈ cs, Char.isWhitespace c = false) : trimChars cs = cs := by
  unfold trimChars
  rw [dropWhile_eq_self_of _ _ h,
    dropWhile_eq_self_of _ _ (fun c hc => h c (by simpa using hc))]
  simp

/-- The trimmed list is a sublist of the original. -/
theorem trimChars_sublist (cs : List Char) : List.Sublist (trimChars cs) cs := by
  unfold trimChars
  have h2 : List.Sublist
      ((cs.dropWhile Char.isWhitespace).reverse.dropWhile Char.isWhitespace)
      (cs.dropWhile Char.isWhitespace).reverse :=
    List.dropWhile_sublist Char.isWhitespace
  have h3 := h2.reverse
  simp only [List.reverse_reverse] at h3
  exact h3.trans (List.dropWhile_sublist Char.isWhitespace)

/-- The bech32 alternation fails at any position whose first character
does not fold to `n`. -/
theorem bech32TryAt_none (c : Char) (rest : List Char)
    (h : ¬ c.toLower = 'n') : bech32TryAt (c :: rest) = none := by
  have h5 : "note1".data = ['n', 'o', 't', 'e', '1'] := rfl
  have h7 : "nevent1".data = ['n', 'e', 'v', 'e', 'n', 't', '1'] := rfl
  simp [bech32TryAt, h5, h7, startsWithCI, h]

/-- The bech32 search fails on input with no character folding to `n`. -/
theorem bech32Search_none (cs : List Char)
    (h : ∀ c ∈ cs, ¬ c.toLower = 'n') : bech32Search cs = none := by
  induction cs with
  | nil => rfl
  | cons c rest ih =>
    simp [bech32Search, bech32TryAt_none c rest (h c (by simp)),
      ih (fun x hx => h x (by simp [hx]))]

/-- The hex matcher matches a full 64-character hex input at position
zero. -/
theorem hexTryAt_full (cs : List Char) (hlen : cs.length = 64)
    (hhex : cs.all isHexCharCI = true) : hexTryAt cs = some cs := by
  simp [hexTryAt, List.take_of_length_le (by omega : cs.length ≤ 64), hlen, hhex]

/-- The hex search on a full 64-character hex input returns the whole
input. -/
theorem hexSearch_full (cs : List Char) (hlen : cs.length = 64)
    (hhex : cs.all isHexCharCI = true) : hexSearch cs = some cs := by
  cases cs with
  | nil => simp at hlen
  | cons c rest => simp [hexSearch, hexTryAt_full _ hlen hhex]

/-- The hex search fails on input shorter than 64 characters. -/
theorem hexSearch_none_of_short (cs : List Char) (h : cs.length < 64) :
    hexSearch cs = none := by
  induction cs with
  | nil => rfl
  | cons c rest ih =>
    have hr : rest.length < 64 := by
      simp only [List.length_cons] at h; omega
    have hne : (((c :: rest).take 64).length == 64) = false := by
      rw [beq_eq_false_iff_ne, List.length_take]
      omega
    simp only [hexSearch, hexTryAt, hne, Bool.false_and, ih hr]
    simp

/-- Encoding digitwise and decoding digitwise recovers the original
characters. -/
theorem decodeHexPayload_map (f : Char → Char) (l : List Char)
    (h : ∀ c ∈ l, decHexDigit (f c) = some c) :
    decodeHexPayload (l.map f) = some l := by
  induction l with
  | nil => rfl
  | cons c rest ih =>
    simp [decodeHexPayload, h c (by simp),
      ih (fun x hx => h x (by simp [hx]))]

/-- A list `isPrefixOf` any extension of itself. -/
theorem isPrefixOf_append (p rest : List Char) :
    p.isPrefixOf (p ++ rest) = true := by
  rw [List.isPrefixOf_iff_prefix]
  exact List.prefix_append p rest

/-- Unfolding of `isLowerHex64`. -/
theorem isLowerHex64_spec (s : String) (h : isLowerHex64 s = true) :
    s.data.length = 64 ∧ ∀ c ∈ s.data, c ∈ lowerHexChars := by
  simp only [isLowerHex64, Bool.and_eq_true, beq_iff_eq, List.all_eq_true] at h
  exact ⟨h.1, fun c hc => by simpa using h.2 c hc⟩

/-- Rebuilding a string from its characters is the identity. -/
theorem string_mk_data (s : String) : String.mk s.data = s := rfl

/-- Shape of the encoding of a 64-character lowercase hex id. -/
theorem noteEncode_eq (s : String) (h : isLowerHex64 s = true) :
    noteEncode s = some (String.mk ("note1".data ++
      s.data.map (fun c => encDigit (hexDigitValD c.toLower)) ++
      bech32ChecksumChars
        (s.data.map (fun c => encDigit (hexDigitValD c.toLower))))) := by
  obtain ⟨hlen, hmem⟩ := isLowerHex64_spec s h
  have hall : s.data.all isHexCharCI = true := by
    rw [List.all_eq_true]; intro c hc
    exact (lowerHex_facts c (hmem c hc)).2.1
  simp [noteEncode, hlen, hall]

/-- Decoding inverts encoding on every 64-character lowercase hex id. -/
theorem decodeEventId_noteEncode (s : String) (h : isLowerHex64 s = true) :
    (noteEncode s).bind decodeEventId = some (s, none) := by
  obtain ⟨hlen, hmem⟩ := isLowerHex64_spec s h
  rw [noteEncode_eq s h]
  have hassoc : "note1".data ++
      s.data.map (fun c => encDigit (hexDigitValD c.toLower)) ++
      bech32ChecksumChars
        (s.data.map (fun c => encDigit (hexDigitValD c.toLower))) =
      "note1".data ++
      (s.data.map (fun c => encDigit (hexDigitValD c.toLower)) ++
       bech32ChecksumChars
        (s.data.map (fun c => encDigit (hexDigitValD c.toLower)))) := by
    rw [List.append_assoc]
  rw [hassoc]
  have hplen : (s.data.map (fun c => encDigit (hexDigitValD c.toLower))).length
      = 64 := by simp [hlen]
  have hchklen : (bech32ChecksumChars
      (s.data.map (fun c => encDigit (hexDigitValD c.toLower)))).length = 6 := by
    simp [bech32ChecksumChars]
  have hpre : "note1".data.isPrefixOf ("note1".data ++
      (s.data.map (fun c => encDigit (hexDigitValD c.toLower)) ++
       bech32ChecksumChars
        (s.data.map (fun c => encDigit (hexDigitValD c.toLower))))) = true :=
    isPrefixOf_append _ _
  have hdec : decodeHexPayload
      (s.data.map (fun c => encDigit (hexDigitValD c.toLower))) = some s.data := by
    refine decodeHexPayload_map _ s.data (fun c hc => ?_)
    have hfacts := lowerHex_facts c (hmem c hc)
    simp only [hfacts.2.2.2.1]
    exact hfacts.2.2.2.2
  simp only [Option.bind, decodeEventId, nip19Decode, hpre, if_true]
  rw [List.drop_left' (by rfl : ("note1".data).length = 5)]
  simp only [decodePayload64, List.length_append, hplen, hchklen,
    List.take_left' hplen, List.drop_left' hplen]
  simp [hdec, string_mk_data]

/-- Extraction accepts a raw 64-character lowercase hex id and returns
its `note1` re-encoding. -/
theorem extractEventId_hex (s : String) (h : isLowerHex64 s = true) :
    extractEventId s = noteEncode s ∧ (noteEncode s).isSome = true := by
  obtain ⟨hlen, hmem⟩ := isLowerHex64_spec s h
  have htrim : trimChars s.data = s.data :=
    trimChars_eq_self _ (fun c hc => (lowerHex_facts c (hmem c hc)).1)
  have hbs : bech32Search s.data = none :=
    bech32Search_none _ (fun c hc => (lowerHex_facts c (hmem c hc)).2.2.1)
  have hall : s.data.all isHexCharCI = true := by
    rw [List.all_eq_true]; intro c hc
    exact (lowerHex_facts c (hmem c hc)).2.1
  have hhs : hexSearch s.data = some s.data := hexSearch_full _ hlen hall
  refine ⟨?_, by rw [noteEncode_eq s h]; rfl⟩
  simp only [extractEventId, htrim, hbs, hhs, string_mk_data]
  cases hne : noteEncode s with
  | none => simp
  | some t => simp

/-- A string with no character folding to `n` and fewer than 64
characters is rejected by both the extraction and the decoding. -/
theorem extract_decode_none (s : String)
    (hn : s.data.all (fun c => !(c.toLower == 'n')) = true)
    (hshort : s.data.length < 64) :
    extractEventId s = none ∧ decodeEventId s = none := by
  have hsub := trimChars_sublist s.data
  have hnall : ∀ c ∈ trimChars s.data, ¬ c.toLower = 'n' := by
    intro c hc
    have := List.all_eq_true.mp hn c (hsub.subset hc)
    simpa using this
  have hbs : bech32Search (trimChars s.data) = none := bech32Search_none _ hnall
  have hlen : (trimChars s.data).length < 64 :=
    lt_of_le_of_lt hsub.length_le hshort
  have hhs : hexSearch (trimChars s.data) = none := hexSearch_none_of_short _ hlen
  refine ⟨by simp [extractEventId, hbs, hhs], ?_⟩
  cases hsd : s.data with
  | nil => simp [decodeEventId, hsd, List.isPrefixOf]
  | cons c rest =>
    have hcall := List.all_eq_true.mp hn c (by rw [hsd]; simp)
    have hc : ¬ c = 'n' := by
      intro he
      rw [he] at hcall
      simp [show ('n'.toLower == 'n') = true from by decide] at hcall
    have hbeq : (('n' : Char) == c) = false := by
      rw [beq_eq_false_iff_ne]
      exact fun hh => hc hh.symm
    have h5 : "note1".data = ['n', 'o', 't', 'e', '1'] := rfl
    have h7 : "nevent1".data = ['n', 'e', 'v', 'e', 'n', 't', '1'] := rfl
    simp [decodeEventId, hsd, h5, h7, List.isPrefixOf, hbeq]

/-- C7: every identifier of the `note1` form with valid checksum
characters (an encoding of a raw 64-hex id) decodes to that raw id; a
64-character lowercase hex string with no prefix is accepted by the
extraction and re-encoded to its `note1` form; and a string with
neither shape (no character folding to `n`, so no `note1`/`nevent1`
match, and too short to hold a 64-hex run) yields `null` from both the
extraction and the decoding. -/
theorem eventId_extraction_spec :
    (∀ s : String, isLowerHex64 s = true →
        (noteEncode s).bind decodeEventId = some (s, none)) ∧
    (∀ s : String, isLowerHex64 s = true →
        extractEventId s = noteEncode s ∧ (noteEncode s).isSome = true) ∧
    (∀ s : String,
        s.data.all (fun c => !(c.toLower == 'n')) = true →
        s.data.length < 64 →
        extractEventId s = none ∧ decodeEventId s = none) :=
  ⟨decodeEventId_noteEncode, extractEventId_hex, extract_decode_none⟩

set_option maxRecDepth 100000 in
/-- C7 witness: a concrete 64-hex id round-trips through the `note1`
form, and a concrete string with neither shape yields `null` from both
functions. -/
theorem eventId_extraction_spec_witness :
    isLowerHex64 c8EventId = true ∧
    (noteEncode c8EventId).bind decodeEventId = some (c8EventId, none) ∧
    extractEventId c8EventId = noteEncode c8EventId ∧
    extractEventId "hello world" = none ∧
    decodeEventId "hello world" = none := by
  have h1 := eventId_extraction_spec.1 c8EventId (by decide)
  have h2 := eventId_extraction_spec.2.1 c8EventId (by decide)
  have h3 := eventId_extraction_spec.2.2 "hello world" (by decide) (by decide)
  exact ⟨by decide, h1, h2.1, h3.1, h3.2⟩

end Nostramp
